import Mathlib

set_option maxRecDepth 8192
set_option maxHeartbeats 1000000

/-!
Verification of the noodle gratuitous-ARP announcer (src/main.rs) against its
natural-language specification.  The source is shallowly embedded: pure logic
becomes Lean functions; the netlink address table, the random source and the
race between workers become explicit parameters; durations are natural numbers
of milliseconds.
-/

namespace Noodle

/-- A MAC address: six octets (pnet MacAddr). -/
structure Mac where
  b0 : Nat
  b1 : Nat
  b2 : Nat
  b3 : Nat
  b4 : Nat
  b5 : Nat
deriving DecidableEq, Repr

/-- Wire bytes of a MAC address. -/
def Mac.toBytes (m : Mac) : List Nat :=
  [m.b0, m.b1, m.b2, m.b3, m.b4, m.b5]

/-- An IPv4 address: four octets. -/
structure IPv4 where
  o0 : Nat
  o1 : Nat
  o2 : Nat
  o3 : Nat
deriving DecidableEq, Repr

/-- Wire bytes of an IPv4 address. -/
def IPv4.toBytes (i : IPv4) : List Nat :=
  [i.o0, i.o1, i.o2, i.o3]

/-- The Watch enum of main.rs (what to do on a competing announcement). -/
inductive Watch where
  | fail
  | quit
  | log
  | no
deriving DecidableEq, Repr

/-- The options record (struct Args of main.rs) as the Supervisor consumes it.
Durations are milliseconds (the CLI parses whole seconds, so every duration the
program itself builds is a multiple of 1000, but the record admits any value). -/
structure Args where
  interval : Nat
  delay : Nat
  watch_delay : Nat
  jitter : Nat
  count : Nat
  watch : Watch
  watch_immediately : Bool
  arp_reply : Bool
  unmanaged_ip : Bool
  die_if_ip_exists : Bool
  remove_pre_existing_ip : Bool
  once : Bool
  target : Mac
deriving DecidableEq, Repr

/-- main.rs 341-346: the once flag forces delay, jitter, count and watch before
validation. -/
def applyOnce (a : Args) : Args :=
  if a.once then
    { a with delay := 0, jitter := 0, count := 1, watch := Watch.no }
  else a

/-- main.rs 348-350: option validation (jitter greater than interval is fatal). -/
def validate (a : Args) : Except String Args :=
  if a.jitter > a.interval then Except.error "jitter > interval makes no sense"
  else Except.ok a

/-- main.rs 284-292, fn jittered.  The match scrutinee is
(base.as_secs(), jitter.as_millis()); with milliseconds as the unit,
as_secs is division by 1000.  The random draw gen_range(0..j) is modelled by
the parameter r (theorems constrain r < j as the library guarantees). -/
def jittered (base jitter r : Nat) : Nat :=
  match base / 1000, jitter with
  | 0, 0 => 0
  | _ + 1, 0 => base
  | _, _ + 1 => base + r

/-- ARP payload bytes as the blaster's setters lay them out
(main.rs 534-555): htype=1, ptype=0x0800, hlen=6, plen=4, oper, then
sender hw, sender proto, target hw, target proto; sender and target are both
the claim (mac, ip); oper is 2 (reply) when arp_reply is set, else 1. -/
def arpPayload (mac : Mac) (ip : IPv4) (arp_reply : Bool) : List Nat :=
  [0, 1, 8, 0, 6, 4, 0, if arp_reply then 2 else 1]
    ++ mac.toBytes ++ ip.toBytes ++ mac.toBytes ++ ip.toBytes

/-- The 42-byte frame the blaster transmits (main.rs 557-568): Ethernet
destination = args.target, source = claim mac, ethertype 0x0806, then the ARP
payload. -/
def buildFrame (mac target : Mac) (ip : IPv4) (arp_reply : Bool) : List Nat :=
  target.toBytes ++ mac.toBytes ++ [8, 6] ++ arpPayload mac ip arp_reply

/-- Decoded view of an Ethernet header (pnet EthernetPacket getters). -/
structure EthView where
  dst : Mac
  src : Mac
  ethertype : Nat
  payload : List Nat
deriving DecidableEq, Repr

/-- Read six consecutive bytes as a MAC. -/
def macAt (l : List Nat) (i : Nat) : Mac :=
  ⟨l.getD i 0, l.getD (i + 1) 0, l.getD (i + 2) 0,
   l.getD (i + 3) 0, l.getD (i + 4) 0, l.getD (i + 5) 0⟩

/-- Read four consecutive bytes as an IPv4 address. -/
def ip4At (l : List Nat) (i : Nat) : IPv4 :=
  ⟨l.getD i 0, l.getD (i + 1) 0, l.getD (i + 2) 0, l.getD (i + 3) 0⟩

/-- pnet EthernetPacket::new: fails iff the buffer is shorter than the 14-byte
header; destination at offset 0, source at 6, ethertype big-endian at 12. -/
def decodeEth (f : List Nat) : Option EthView :=
  if f.length < 14 then none
  else some ⟨macAt f 0, macAt f 6, f.getD 12 0 * 256 + f.getD 13 0, f.drop 14⟩

/-- Decoded view of an ARP payload (pnet ArpPacket getters). -/
structure ArpView where
  htype : Nat
  ptype : Nat
  hlen : Nat
  plen : Nat
  oper : Nat
  senderHw : Mac
  senderProto : IPv4
  targetHw : Mac
  targetProto : IPv4
deriving DecidableEq, Repr

/-- pnet ArpPacket::new: fails iff the buffer is shorter than the fixed 28-byte
IPv4-over-Ethernet ARP payload.  Any opcode or hardware type value decodes. -/
def decodeArp (p : List Nat) : Option ArpView :=
  if p.length < 28 then none
  else some ⟨p.getD 0 0 * 256 + p.getD 1 0, p.getD 2 0 * 256 + p.getD 3 0,
             p.getD 4 0, p.getD 5 0, p.getD 6 0 * 256 + p.getD 7 0,
             macAt p 8, ip4At p 14, macAt p 18, ip4At p 24⟩

/-- main.rs 472-476: rendering of the ARP operation for the debug log entry
(ArpOperations::Reply = 2 is matched first, then Request = 1). -/
def opString (n : Nat) : String :=
  if n = 2 then "reply"
  else if n = 1 then "request"
  else "unknown: " ++ toString n

/-- main.rs 478-481: rendering of the ARP hardware type
(ArpHardwareTypes::Ethernet = 1). -/
def hwString (n : Nat) : String :=
  if n = 1 then "ethernet"
  else "unknown: " ++ toString n

/-- main.rs 483: a frame is gratuitous when sender and target protocol
addresses coincide. -/
def gratuitous (v : ArpView) : Bool :=
  decide (v.senderProto = v.targetProto)

/-- main.rs 498-500: the conflict condition of the watcher. -/
def conflict (ip : IPv4) (mac : Mac) (v : ArpView) : Bool :=
  gratuitous v && decide (v.senderProto = ip) && decide (v.senderHw ≠ mac)

/-- Outcome of the watcher's conflict dispatch for one decoded frame
(main.rs 498-525).  errOut / quitOk / logWarn carry the competitor data the
code logs or returns: the Ethernet source and the ARP sender hardware address. -/
inductive StepAction where
  | keep
  | errOut (src : Mac) (senderHw : Mac)
  | quitOk (src : Mac) (senderHw : Mac)
  | logWarn (src : Mac) (senderHw : Mac)
deriving DecidableEq, Repr

/-- One conflict check plus policy dispatch of the watcher loop
(main.rs 498-525).  Watch::No is unreachable!() in the source because the
listener returns before the loop when watch is No; it is mapped to keep. -/
def watcherStep (w : Watch) (ip : IPv4) (mac : Mac) (ethSrc : Mac)
    (v : ArpView) : StepAction :=
  if conflict ip mac v then
    match w with
    | Watch.no => StepAction.keep
    | Watch.fail => StepAction.errOut ethSrc v.senderHw
    | Watch.quit => StepAction.quitOk ethSrc v.senderHw
    | Watch.log => StepAction.logWarn ethSrc v.senderHw
  else StepAction.keep

/-- Errors a worker can return: a too-small buffer on decode, or the
competing-announce error of watch mode Fail (carrying the frame's Ethernet
source and ARP sender hardware address, main.rs 504-510). -/
inductive WErr where
  | bufSmall (which : String)
  | competing (src : Mac) (senderHw : Mac)
deriving DecidableEq, Repr

/-- Observable events of the listener task. -/
inductive LEv where
  | waitSig
  | sleepW (d : Nat)
  | classify (src : Mac) (v : ArpView)
deriving DecidableEq, Repr

/-- How the listener task ends (relative to a finite prefix of received
frames): still in its loop, returned Ok, blocked forever on the never-fired
arming signal, or returned an error. -/
inductive LoopRes where
  | running
  | done
  | blocked
  | failed (e : WErr)
deriving DecidableEq, Repr

/-- The watcher's receive loop (main.rs 460-526) over a finite prefix of
received raw frames.  Non-ARP ethertypes are skipped; decoded ARP frames are
logged (the classify event) and checked for conflict; Fail returns the
competitor error, Quit returns Ok, Log and no-conflict continue. -/
def listenerLoop (w : Watch) (ip : IPv4) (mac : Mac) :
    List (List Nat) → List LEv × LoopRes
  | [] => ([], LoopRes.running)
  | pkt :: rest =>
    match decodeEth pkt with
    | none => ([], LoopRes.failed (WErr.bufSmall "eth packet buffer too small"))
    | some eth =>
      if eth.ethertype ≠ 0x0806 then listenerLoop w ip mac rest
      else
        match decodeArp eth.payload with
        | none => ([], LoopRes.failed (WErr.bufSmall "arp packet buffer too small"))
        | some v =>
          match watcherStep w ip mac eth.src v with
          | StepAction.keep =>
            let (evs, r) := listenerLoop w ip mac rest
            (LEv.classify eth.src v :: evs, r)
          | StepAction.errOut s h =>
            ([LEv.classify eth.src v], LoopRes.failed (WErr.competing s h))
          | StepAction.quitOk _ _ =>
            ([LEv.classify eth.src v], LoopRes.done)
          | StepAction.logWarn _ _ =>
            let (evs, r) := listenerLoop w ip mac rest
            (LEv.classify eth.src v :: evs, r)

/-- fn wait (main.rs 277-282) sleeps only when the duration is nonzero; its
event trace for the watcher. -/
def waitEvs (d : Nat) : List LEv :=
  if d = 0 then [] else [LEv.sleepW d]

/-- The whole listener task (main.rs 448-527).  With watch No it returns Ok
at once.  Otherwise it waits on the arming signal (blocking forever when the
signal never fires during the run), sleeps watch_delay, then loops. -/
def listenerRun (w : Watch) (signalFires : Bool) (ip : IPv4) (mac : Mac)
    (wd : Nat) (pkts : List (List Nat)) : List LEv × LoopRes :=
  match w with
  | Watch.no => ([], LoopRes.done)
  | _ =>
    if signalFires then
      let (evs, r) := listenerLoop w ip mac pkts
      (LEv.waitSig :: (waitEvs wd ++ evs), r)
    else ([LEv.waitSig], LoopRes.blocked)

/-- main.rs 438-443: the arming signal is created already fired when
watch_immediately is set or count is zero. -/
def prefired (a : Args) : Bool :=
  a.watch_immediately || decide (a.count = 0)

/-- Observable events of the blaster task: a transmitted frame, the firing of
the arming signal, a sleep. -/
inductive BEv where
  | send (f : List Nat)
  | fired
  | slept (d : Nat)
deriving DecidableEq, Repr

/-- fn wait for the blaster trace: a sleep event only when nonzero. -/
def waitB (d : Nat) : List BEv :=
  if d = 0 then [] else [BEv.slept d]

/-- The announce loop (main.rs 532-594), fuel-bounded.  State: iteration
counter n, and pulse = whether watch_pulse is still Some (not yet taken).
rs n is the random draw of iteration n.  Returns the event trace, the final
pulse state, and whether the loop returned (true) or fuel ran out (false).
Per iteration: build and send the frame, increment n, return when the count
cap is reached, else fire the pulse if still held, sleep jittered. -/
def blastLoop (a : Args) (mac : Mac) (ip : IPv4) (rs : Nat → Nat) :
    Nat → Nat → Bool → List BEv × Bool × Bool
  | 0, _, pulse => ([], pulse, false)
  | fuel + 1, n, pulse =>
    let f := buildFrame mac a.target ip a.arp_reply
    let n1 := n + 1
    if 0 < a.count ∧ a.count ≤ n1 then
      ([BEv.send f], pulse, true)
    else
      let fireEvs : List BEv := if pulse then [BEv.fired] else []
      let d := jittered a.interval a.jitter (rs n)
      let (rest, p2, fin) := blastLoop a mac ip rs fuel n1 false
      (BEv.send f :: (fireEvs ++ (waitB d ++ rest)), p2, fin)

/-- The whole blaster task (main.rs 529-595): initial unjittered delay, then
the announce loop; the pulse is held iff the signal was not pre-fired. -/
def blaster (a : Args) (mac : Mac) (ip : IPv4) (rs : Nat → Nat)
    (fuel : Nat) : List BEv × Bool × Bool :=
  let (evs, p, fin) := blastLoop a mac ip rs fuel 0 (!prefired a)
  (waitB a.delay ++ evs, p, fin)

/-- Whether the arming signal ever fires during a run whose blaster produced
the given trace: either it was created fired, or the blaster pulsed it. -/
def signalFired (a : Args) (evs : List BEv) : Bool :=
  prefired a || decide (BEv.fired ∈ evs)

/-- A netlink address record as find_addr_for_ip consumes it: the interface
index of its header and the payload of its first Nla::Address entry, if any. -/
structure AddressMessage where
  index : Nat
  addrBytes : Option (List Nat)
deriving DecidableEq, Repr

/-- The per-record test of find_addr_for_ip (main.rs 622-655, IPv4 arm):
skip records on another interface or without an Address nla; the
4-byte conversion succeeds exactly when the payload has 4 bytes, and the
resulting address must equal the claim ip. -/
def addrMatches (ifIndex : Nat) (ip : IPv4) (a : AddressMessage) : Bool :=
  decide (a.index = ifIndex) &&
    match a.addrBytes with
    | none => false
    | some ab => decide (ab.length = 4) && decide (ab = ip.toBytes)

/-- fn find_addr_for_ip: first record of the kernel's address list that
matches the interface and ip. -/
def find_addr_for_ip (st : List AddressMessage) (ifIndex : Nat) (ip : IPv4) :
    Option AddressMessage :=
  st.find? (addrMatches ifIndex ip)

/-- Kernel effect of AddressHandle::add: a new record for the interface
carrying the address bytes. -/
def nlAdd (st : List AddressMessage) (ifIndex : Nat) (ip : IPv4) :
    List AddressMessage :=
  st ++ [⟨ifIndex, some ip.toBytes⟩]

/-- Kernel effect of AddressHandle::del: remove the given record (first
occurrence). -/
def eraseFirst : List AddressMessage → AddressMessage → List AddressMessage
  | [], _ => []
  | x :: xs, r => if x = r then xs else x :: eraseFirst xs r

/-- Netlink operations the run issues, for stating that a path performs no
side effect. -/
inductive NlOp where
  | added (ifIndex : Nat) (ip : IPv4)
  | deleted (r : AddressMessage)
deriving DecidableEq, Repr

/-- Result of the address preflight: fatal error, or proceed with the
possibly updated kernel state, the effective ip_managed flag, and the netlink
operations issued. -/
inductive Pre where
  | fatal (msg : String)
  | go (st : List AddressMessage) (ipManaged : Bool) (ops : List NlOp)
deriving DecidableEq, Repr

/-- The address block of run (main.rs 414-434).  ip_managed starts as the
negation of unmanaged_ip (main.rs 387).  If the ip is already on the
interface: die_if_ip_exists is fatal before any side effect, otherwise
ip_managed stays true only with remove_pre_existing_ip, and no add is issued.
If absent, add it. -/
def preflightAddr (a : Args) (st : List AddressMessage) (ifIndex : Nat)
    (ip : IPv4) : Pre :=
  if !a.unmanaged_ip then
    match find_addr_for_ip st ifIndex ip with
    | some _ =>
      if a.die_if_ip_exists then Pre.fatal "ip exists on interface, abort"
      else Pre.go st a.remove_pre_existing_ip []
    | none => Pre.go (nlAdd st ifIndex ip) true [NlOp.added ifIndex ip]
  else Pre.go st false []

/-- Teardown (main.rs 612-617): when ip_managed is still set, look the record
up again and delete it if found; a missing record is benign and nothing is
deleted. -/
def teardownAddr (st : List AddressMessage) (ipManaged : Bool) (ifIndex : Nat)
    (ip : IPv4) : List AddressMessage × List NlOp :=
  if ipManaged then
    match find_addr_for_ip st ifIndex ip with
    | some addr => (eraseFirst st addr, [NlOp.deleted addr])
    | none => (st, [])
  else (st, [])

/-- Which of the raced futures completes first (main.rs 602-607): the shutdown
channel (Ok on signal), or a worker with its result. -/
inductive RaceOutcome where
  | shutdown
  | workerOk
  | workerErr (e : WErr)
deriving DecidableEq, Repr

/-- Outcome of a whole run: the value run returns to main, the final kernel
address state, and the netlink operations issued. -/
structure RunOut where
  result : Except String Unit
  st : List AddressMessage
  ops : List NlOp
deriving Repr

/-- fn run (main.rs 390-620) restricted to its address/exit logic.  A fatal
preflight propagates (and teardown is skipped).  The result of the race is
only printed by eprintln (main.rs 602-610), never propagated; teardown then
runs and run returns Ok. -/
def runAddr (a : Args) (st : List AddressMessage) (ifIndex : Nat) (ip : IPv4)
    (race : RaceOutcome) : RunOut :=
  match preflightAddr a st ifIndex ip with
  | Pre.fatal m => ⟨Except.error m, st, []⟩
  | Pre.go st1 ipm ops =>
    let _printedOnly := race
    let (st2, ops2) := teardownAddr st1 ipm ifIndex ip
    ⟨Except.ok (), st2, ops ++ ops2⟩

/-- fn main (main.rs 294-314): a run error is logged and the process exits 1;
otherwise main returns Ok and the process exits 0. -/
def exitCode (r : Except String Unit) : Nat :=
  match r with
  | Except.error _ => 1
  | Except.ok _ => 0

/-! Concrete fixtures for witnesses and counterexamples: claim ip 10.0.0.42,
our mac 02:00:00:00:00:01, a competitor at aa:bb:cc:dd:ee:ff. -/

/-- Fixture: the claimed IPv4 address. -/
def testIp : IPv4 := ⟨10, 0, 0, 42⟩

/-- Fixture: our claimed MAC address. -/
def testMac : Mac := ⟨2, 0, 0, 0, 0, 1⟩

/-- Fixture: the competitor's MAC address. -/
def compHw : Mac := ⟨0xaa, 0xbb, 0xcc, 0xdd, 0xee, 0xff⟩

/-- The broadcast MAC, the default target. -/
def bcast : Mac := ⟨255, 255, 255, 255, 255, 255⟩

/-- Fixture: options as the CLI defaults build them (interval 10 s, jitter 1 s,
count 0, watch fail, managed ip). -/
def baseArgs : Args :=
  ⟨10000, 0, 0, 1000, 0, Watch.fail, false, false, false, false, false, false, bcast⟩

/-- Fixture: a competing gratuitous announcement for the same ip: the
competitor's own claim frame (gratuitous ARP reply from compHw for testIp). -/
def compFrame : List Nat := buildFrame compHw bcast testIp true

/-- Fixture: decoded view of compFrame's ARP payload. -/
def compView : ArpView := ⟨1, 0x0800, 6, 4, 2, compHw, testIp, compHw, testIp⟩

/-- Fixture: an ARP payload identical to the competitor's but with the unknown
opcode 3. -/
def oddPayload : List Nat :=
  [0, 1, 8, 0, 6, 4, 0, 3]
    ++ compHw.toBytes ++ testIp.toBytes ++ compHw.toBytes ++ testIp.toBytes

/-- Fixture: full frame carrying oddPayload. -/
def oddFrame : List Nat := bcast.toBytes ++ compHw.toBytes ++ [8, 6] ++ oddPayload

/-- Fixture: options with count 2 (used to exercise the arming pulse). -/
def count2Args : Args := { baseArgs with count := 2 }

/-- Fixture: options with count 1 and watch fail. -/
def count1Args : Args := { baseArgs with count := 1 }

/-- Fixture: options with the once flag set. -/
def onceArgs : Args := { baseArgs with once := true }

/-- Fixture: options with die_if_ip_exists set. -/
def dieArgs : Args := { baseArgs with die_if_ip_exists := true }

/-- Fixture: a kernel address table already holding the claimed ip on
interface 3. -/
def stWith : List AddressMessage := [⟨3, some testIp.toBytes⟩]

/-- True on every blaster event that is not a transmit of a frame other than
bf: used to state that every transmitted frame equals the encoder's output. -/
def sendOk (bf : List Nat) : BEv → Bool
  | BEv.send f => decide (f = bf)
  | _ => true

/-! Claim theorems. -/

/-- Helper: the wait events of the blaster satisfy any send predicate. -/
theorem waitB_all_sendOk (bf : List Nat) (d : Nat) :
    (waitB d).all (sendOk bf) = true := by
  unfold waitB
  split <;> simp [sendOk]

/-- Helper: every frame the announce loop transmits is the encoder's frame for
the current configuration, whatever the iteration or pulse state. -/
theorem blastLoop_all_sendOk (a : Args) (mac : Mac) (ip : IPv4)
    (rs : Nat → Nat) :
    ∀ fuel n pulse,
      ((blastLoop a mac ip rs fuel n pulse).1.all
        (sendOk (buildFrame mac a.target ip a.arp_reply))) = true := by
  intro fuel
  induction fuel with
  | zero => intro n pulse; rfl
  | succ k ih =>
    intro n pulse
    rcases hres : blastLoop a mac ip rs k (n + 1) false with ⟨rest, p2, fin⟩
    have hrest : rest.all (sendOk (buildFrame mac a.target ip a.arp_reply))
        = true := by
      have h2 := ih (n + 1) false
      rw [hres] at h2
      exact h2
    simp only [blastLoop, hres]
    split
    · simp [sendOk]
    · cases pulse <;>
        simp [sendOk, List.all_cons, List.all_append, waitB_all_sendOk, hrest]

/-- C2: every frame the announcer transmits, in every iteration and for every
configuration, is the 42-byte frame with ethertype 0x0806, htype 1,
ptype 0x0800, hlen 6, plen 4, sender and target protocol address the claimed
ip, sender and target hardware address the claimed MAC, Ethernet source the
claimed MAC, Ethernet destination the configured target, and ARP opcode 2
when arp_reply is set, else 1. -/
theorem C2_frame_wire_format (a : Args) (mac : Mac) (ip : IPv4)
    (rs : Nat → Nat) (fuel : Nat) :
    (buildFrame mac a.target ip a.arp_reply).length = 42
    ∧ decodeEth (buildFrame mac a.target ip a.arp_reply)
        = some ⟨a.target, mac, 0x0806, arpPayload mac ip a.arp_reply⟩
    ∧ decodeArp (arpPayload mac ip a.arp_reply)
        = some ⟨1, 0x0800, 6, 4, if a.arp_reply then 2 else 1, mac, ip, mac, ip⟩
    ∧ ((blaster a mac ip rs fuel).1.all
        (sendOk (buildFrame mac a.target ip a.arp_reply))) = true := by
  refine ⟨rfl, rfl, ?_, ?_⟩
  · cases ha : a.arp_reply <;> rfl
  · unfold blaster
    rcases hres : blastLoop a mac ip rs fuel 0 (!prefired a) with ⟨evs, p2, fin⟩
    have h2 := blastLoop_all_sendOk a mac ip rs fuel 0 (!prefired a)
    rw [hres] at h2
    simp [List.all_append, waitB_all_sendOk, h2]

/-- C1 (code-bug evidence): at the failing input — watch mode Fail and a
received competing gratuitous announcement — the watcher does return the
error carrying the competitor's source MAC and sender hardware address, and
with Quit it returns success; but run only prints the raced worker error
(main.rs 602-610) and returns Ok, so the process exits with status 0 on the
Fail path as well, although the claim (and the code's own option help, which
says fail exits with code 1) requires status 1. -/
theorem C1_watch_fail_exit_status :
    (listenerRun Watch.fail true testIp testMac 0 [compFrame]).2
      = LoopRes.failed (WErr.competing compHw compHw)
    ∧ exitCode (runAddr baseArgs [] 3 testIp
        (RaceOutcome.workerErr (WErr.competing compHw compHw))).result = 0
    ∧ (listenerRun Watch.quit true testIp testMac 0 [compFrame]).2
      = LoopRes.done
    ∧ exitCode (runAddr { baseArgs with watch := Watch.quit } [] 3 testIp
        RaceOutcome.workerOk).result = 0 := by
  exact ⟨by decide, by rfl, by decide, by rfl⟩

/-- C7 counterexample: the claim says that whenever jitter is zero the
scheduler returns base; but for base = 500 ms (a sub-second nonzero duration)
and jitter = 0 the code matches on base.as_secs() = 0 and returns 0, not
base. -/
theorem C7_counterexample :
    jittered 500 0 0 = 0 ∧ jittered 500 0 0 ≠ 500 := by decide

/-- C7 (amended): if base is shorter than one second and jitter is zero the
scheduler returns 0; if jitter is zero and base is at least one second it
returns base; if jitter is nonzero it returns base plus a whole number of
milliseconds r with r below jitter, so the result lies in
the interval from base inclusive to base + jitter exclusive. -/
theorem C7_jittered_range (base jitter r : Nat) (hr : 0 < jitter → r < jitter) :
    (base / 1000 = 0 → jitter = 0 → jittered base jitter r = 0)
    ∧ (0 < base / 1000 → jitter = 0 → jittered base jitter r = base)
    ∧ (0 < jitter →
        base ≤ jittered base jitter r ∧ jittered base jitter r < base + jitter) := by
  refine ⟨?_, ?_, ?_⟩
  · intro hb hj
    subst hj
    unfold jittered
    rw [hb]
  · intro hb hj
    subst hj
    unfold jittered
    rcases Nat.exists_eq_add_of_lt hb with ⟨k, hk⟩
    rw [hk]
  · intro hj
    have he : jittered base jitter r = base + r := by
      rcases Nat.exists_eq_add_of_lt hj with ⟨j, hjj⟩
      subst hjj
      unfold jittered
      rcases Nat.eq_zero_or_pos (base / 1000) with hb | hb
      · rw [hb]
      · rcases Nat.exists_eq_add_of_lt hb with ⟨k, hk⟩
        rw [hk]
    rw [he]
    have hr2 := hr hj
    exact ⟨Nat.le_add_right _ _, by omega⟩

/-- C7 witness: at base 10000 ms, jitter 1000 ms, draw 5, the sleep lies in
the half-open interval from 10000 to 11000. -/
theorem C7_witness :
    10000 ≤ jittered 10000 1000 5 ∧ jittered 10000 1000 5 < 10000 + 1000 :=
  (C7_jittered_range 10000 1000 5 (fun _ => by decide)).2.2 (by decide)

/-- C3: for a running watcher (watch mode other than No) a decoded ARP frame
causes a policy action (some outcome other than keep) exactly when it is
gratuitous, announces the claimed ip, and comes from a foreign MAC; and any
frame whose sender and target protocol addresses differ never causes a policy
action, whatever its sender and whatever the watch mode. -/
theorem C3_conflict_predicate (w : Watch) (ip : IPv4) (mac ethSrc : Mac)
    (v : ArpView) (hw : w ≠ Watch.no) :
    (watcherStep w ip mac ethSrc v ≠ StepAction.keep ↔
      (v.senderProto = v.targetProto ∧ v.senderProto = ip ∧ v.senderHw ≠ mac))
    ∧ (v.senderProto ≠ v.targetProto →
        watcherStep w ip mac ethSrc v = StepAction.keep) := by
  constructor
  · cases w with
    | no => exact absurd rfl hw
    | fail =>
      simp only [watcherStep, conflict, gratuitous]
      by_cases h1 : v.senderProto = v.targetProto <;>
        by_cases h2 : v.senderProto = ip <;>
          by_cases h3 : v.senderHw = mac <;>
            simp [h1, h2, h3]
    | quit =>
      simp only [watcherStep, conflict, gratuitous]
      by_cases h1 : v.senderProto = v.targetProto <;>
        by_cases h2 : v.senderProto = ip <;>
          by_cases h3 : v.senderHw = mac <;>
            simp [h1, h2, h3]
    | log =>
      simp only [watcherStep, conflict, gratuitous]
      by_cases h1 : v.senderProto = v.targetProto <;>
        by_cases h2 : v.senderProto = ip <;>
          by_cases h3 : v.senderHw = mac <;>
            simp [h1, h2, h3]
  · intro hng
    cases w <;> simp [watcherStep, conflict, gratuitous, hng]

/-- C3 witness: at the concrete competitor frame the predicate holds and the
watcher acts; at a non-gratuitous variant it keeps silent. -/
theorem C3_witness :
    (watcherStep Watch.fail testIp testMac compHw compView ≠ StepAction.keep ↔
      (compView.senderProto = compView.targetProto ∧ compView.senderProto = testIp
        ∧ compView.senderHw ≠ testMac))
    ∧ (compView.senderProto ≠ compView.targetProto →
        watcherStep Watch.fail testIp testMac compHw compView = StepAction.keep) :=
  C3_conflict_predicate Watch.fail testIp testMac compHw compView (by decide)

/-- C9 counterexample: a gratuitous ARP frame for the claimed ip from a
foreign MAC whose opcode is 3 (neither request nor reply) does trigger
conflict detection: the watcher in Fail mode returns the competitor error on
it, while the claim says such a frame never triggers conflict detection. -/
theorem C9_counterexample :
    decodeArp oddPayload =
      some ⟨1, 0x0800, 6, 4, 3, compHw, testIp, compHw, testIp⟩
    ∧ (3 : Nat) ≠ 1 ∧ (3 : Nat) ≠ 2
    ∧ (listenerLoop Watch.fail testIp testMac [oddFrame]).2
        = LoopRes.failed (WErr.competing compHw compHw) := by decide

/-- C9 (amended): an ARP frame with unknown opcode or hardware type is not an
error: any 28-byte payload decodes, the unknown value is rendered as
unknown: N for the debug log, and the opcode and hardware type play no role
in conflict detection (the watcher treats the frame exactly as it would with
any other opcode and hardware type). -/
theorem C9_unknown_classified (p : List Nat) (w : Watch) (ip : IPv4)
    (mac s : Mac) (v : ArpView) (n m : Nat) (hp : 28 ≤ p.length)
    (hn1 : n ≠ 1) (hn2 : n ≠ 2) (hm : m ≠ 1) :
    (decodeArp p).isSome = true
    ∧ opString n = "unknown: " ++ toString n
    ∧ hwString m = "unknown: " ++ toString m
    ∧ watcherStep w ip mac s { v with oper := n, htype := m }
        = watcherStep w ip mac s v := by
  refine ⟨?_, ?_, ?_, ?_⟩
  · simp [decodeArp, Nat.not_lt.mpr hp]
  · simp [opString, hn1, hn2]
  · simp [hwString, hm]
  · simp [watcherStep, conflict, gratuitous]

/-- C9 witness: the amended statement at the concrete unknown-opcode payload,
opcode 3 and hardware type 7. -/
theorem C9_witness :
    (decodeArp oddPayload).isSome = true
    ∧ opString 3 = "unknown: " ++ toString 3
    ∧ hwString 7 = "unknown: " ++ toString 7
    ∧ watcherStep Watch.fail testIp testMac compHw
        { compView with oper := 3, htype := 7 }
        = watcherStep Watch.fail testIp testMac compHw compView :=
  C9_unknown_classified oddPayload Watch.fail testIp testMac compHw compView 3 7
    (by decide) (by decide) (by decide) (by decide)

/-- Helper: the record the preflight adds matches its own lookup. -/
theorem addrMatches_self (ifIndex : Nat) (ip : IPv4) :
    addrMatches ifIndex ip ⟨ifIndex, some ip.toBytes⟩ = true := by
  simp [addrMatches, IPv4.toBytes]

/-- Helper: after an add that followed a failed lookup, the lookup returns
exactly the added record. -/
theorem find_after_add (st : List AddressMessage) (ifIndex : Nat) (ip : IPv4)
    (h : find_addr_for_ip st ifIndex ip = none) :
    find_addr_for_ip (nlAdd st ifIndex ip) ifIndex ip
      = some ⟨ifIndex, some ip.toBytes⟩ := by
  unfold find_addr_for_ip nlAdd
  unfold find_addr_for_ip at h
  rw [List.find?_append, h]
  simp [addrMatches_self]

/-- Helper: a record that would match the lookup is absent from any list on
which the lookup failed. -/
theorem not_mem_of_find_none (st : List AddressMessage) (ifIndex : Nat)
    (ip : IPv4) (h : find_addr_for_ip st ifIndex ip = none) :
    (⟨ifIndex, some ip.toBytes⟩ : AddressMessage) ∉ st := by
  intro hmem
  unfold find_addr_for_ip at h
  rw [List.find?_eq_none] at h
  exact absurd (addrMatches_self ifIndex ip) (by simpa using h _ hmem)

/-- Helper: deleting a record that was appended to a table not containing it
restores the table. -/
theorem eraseFirst_append_self (st : List AddressMessage) (r : AddressMessage)
    (h : r ∉ st) : eraseFirst (st ++ [r]) r = st := by
  induction st with
  | nil => simp [eraseFirst]
  | cons x xs ih =>
    have hx : x ≠ r := by
      intro he
      exact h (he ▸ List.mem_cons_self x xs)
    simp only [List.cons_append, eraseFirst, List.append_eq]
    rw [if_neg hx, ih (fun hm => h (List.mem_cons_of_mem x hm))]

/-- C4: with manage_ip set and no pre-existing address, preflight adds the
address and it is present from the completion of add (the body issues no
further address operations) until teardown; on every exit path of the run
(shutdown, worker success, worker error) teardown deletes exactly the added
record, after which it is absent; and a second teardown deletes nothing
because its lookup finds no record. -/
theorem C4_managed_ip_lifecycle (a : Args) (st : List AddressMessage)
    (ifIndex : Nat) (ip : IPv4) (hm : a.unmanaged_ip = false)
    (hnone : find_addr_for_ip st ifIndex ip = none) :
    preflightAddr a st ifIndex ip
      = Pre.go (nlAdd st ifIndex ip) true [NlOp.added ifIndex ip]
    ∧ find_addr_for_ip (nlAdd st ifIndex ip) ifIndex ip
      = some ⟨ifIndex, some ip.toBytes⟩
    ∧ (∀ race, runAddr a st ifIndex ip race
        = ⟨Except.ok (), st,
           [NlOp.added ifIndex ip, NlOp.deleted ⟨ifIndex, some ip.toBytes⟩]⟩)
    ∧ find_addr_for_ip st ifIndex ip = none
    ∧ teardownAddr st true ifIndex ip = (st, []) := by
  have hfa := find_after_add st ifIndex ip hnone
  have her : eraseFirst (st ++ [⟨ifIndex, some ip.toBytes⟩])
      ⟨ifIndex, some ip.toBytes⟩ = st :=
    eraseFirst_append_self st _ (not_mem_of_find_none st ifIndex ip hnone)
  have hpre : preflightAddr a st ifIndex ip
      = Pre.go (nlAdd st ifIndex ip) true [NlOp.added ifIndex ip] := by
    simp [preflightAddr, hm, hnone]
  have htd : teardownAddr (nlAdd st ifIndex ip) true ifIndex ip
      = (st, [NlOp.deleted ⟨ifIndex, some ip.toBytes⟩]) := by
    unfold teardownAddr
    rw [hfa]
    simp [nlAdd] at her ⊢
    rw [her]
  refine ⟨hpre, hfa, ?_, hnone, ?_⟩
  · intro race
    unfold runAddr
    rw [hpre]
    simp [htd]
  · unfold teardownAddr
    simp [hnone]

/-- C4 witness: starting from an empty address table, on the shutdown exit
path the run adds and then deletes the claimed address and ends with the
table empty. -/
theorem C4_witness :
    preflightAddr baseArgs [] 3 testIp
      = Pre.go (nlAdd [] 3 testIp) true [NlOp.added 3 testIp]
    ∧ runAddr baseArgs [] 3 testIp RaceOutcome.shutdown
      = ⟨Except.ok (), [],
         [NlOp.added 3 testIp, NlOp.deleted ⟨3, some testIp.toBytes⟩]⟩ := by
  have h := C4_managed_ip_lifecycle baseArgs [] 3 testIp rfl rfl
  exact ⟨h.1, h.2.2.1 RaceOutcome.shutdown⟩

/-- C8: with die_if_ip_exists set and the ip already on the interface,
the run fails before any side effect: no netlink operation is issued, the
address table is unchanged, and the process exits with status 1, on every
race outcome (the fatal return happens before the workers start and before
teardown). -/
theorem C8_die_if_exists_no_side_effect (a : Args) (st : List AddressMessage)
    (ifIndex : Nat) (ip : IPv4) (r : AddressMessage)
    (hm : a.unmanaged_ip = false) (hd : a.die_if_ip_exists = true)
    (hf : find_addr_for_ip st ifIndex ip = some r) :
    ∀ race, runAddr a st ifIndex ip race
        = ⟨Except.error "ip exists on interface, abort", st, []⟩
      ∧ exitCode (runAddr a st ifIndex ip race).result = 1 := by
  intro race
  have hpre : preflightAddr a st ifIndex ip
      = Pre.fatal "ip exists on interface, abort" := by
    simp [preflightAddr, hm, hf, hd]
  constructor
  · unfold runAddr
    rw [hpre]
  · unfold runAddr
    rw [hpre]
    rfl

/-- C8 witness: the concrete pre-existing table with the claimed ip on
interface 3 makes the run fail with no operations and exit 1. -/
theorem C8_witness :
    runAddr dieArgs stWith 3 testIp RaceOutcome.workerOk
      = ⟨Except.error "ip exists on interface, abort", stWith, []⟩
    ∧ exitCode (runAddr dieArgs stWith 3 testIp RaceOutcome.workerOk).result
      = 1 :=
  C8_die_if_exists_no_side_effect dieArgs stWith 3 testIp
    ⟨3, some testIp.toBytes⟩ rfl rfl (by decide) RaceOutcome.workerOk

/-- C6: the once flag forces delay 0, jitter 0, count 1 and watch No before
validation (which then always passes, jitter being 0); the blaster then
transmits exactly one frame and returns success, the listener returns at once
without entering its classification loop, and the run exits 0 whenever the
preflight is not fatal. -/
theorem C6_once_semantics (a : Args) (mac : Mac) (ip : IPv4) (rs : Nat → Nat)
    (st : List AddressMessage) (ifIndex : Nat) (fuel : Nat)
    (h : a.once = true)
    (hnf : ∀ m, preflightAddr (applyOnce a) st ifIndex ip ≠ Pre.fatal m) :
    (applyOnce a).delay = 0 ∧ (applyOnce a).jitter = 0
    ∧ (applyOnce a).count = 1 ∧ (applyOnce a).watch = Watch.no
    ∧ validate (applyOnce a) = Except.ok (applyOnce a)
    ∧ (blaster (applyOnce a) mac ip rs (fuel + 1)).1
        = [BEv.send (buildFrame mac a.target ip a.arp_reply)]
    ∧ (blaster (applyOnce a) mac ip rs (fuel + 1)).2.2 = true
    ∧ (∀ sf pkts, listenerRun (applyOnce a).watch sf ip mac
        (applyOnce a).watch_delay pkts = ([], LoopRes.done))
    ∧ (∀ race, exitCode (runAddr (applyOnce a) st ifIndex ip race).result = 0)
    := by
  have hb : blaster (applyOnce a) mac ip rs (fuel + 1)
      = ([BEv.send (buildFrame mac a.target ip a.arp_reply)],
         !prefired (applyOnce a), true) := by
    simp [blaster, blastLoop, applyOnce, h, waitB]
  refine ⟨by simp [applyOnce, h], by simp [applyOnce, h], by simp [applyOnce, h],
    by simp [applyOnce, h], ?_, ?_, ?_, ?_, ?_⟩
  · simp [validate, applyOnce, h]
  · rw [hb]
  · rw [hb]
  · intro sf pkts
    have hw : (applyOnce a).watch = Watch.no := by simp [applyOnce, h]
    rw [hw]
    rfl
  · intro race
    unfold runAddr
    cases hp : preflightAddr (applyOnce a) st ifIndex ip with
    | fatal m => exact absurd hp (hnf m)
    | go st1 ipm ops =>
      rcases ht : teardownAddr st1 ipm ifIndex ip with ⟨st2, ops2⟩
      simp [ht, exitCode]

/-- C6 witness: the concrete once configuration transmits one frame,
validates, and exits 0 starting from an empty address table. -/
theorem C6_witness :
    validate (applyOnce onceArgs) = Except.ok (applyOnce onceArgs)
    ∧ (blaster (applyOnce onceArgs) testMac testIp (fun _ => 0) 1).1
      = [BEv.send (buildFrame testMac onceArgs.target testIp
          onceArgs.arp_reply)]
    ∧ exitCode (runAddr (applyOnce onceArgs) [] 3 testIp
        RaceOutcome.workerOk).result = 0 := by
  have h := C6_once_semantics onceArgs testMac testIp (fun _ => 0) [] 3 0 rfl
    (by
      intro m hm
      rw [show preflightAddr (applyOnce onceArgs) [] 3 testIp
          = Pre.go (nlAdd [] 3 testIp) true [NlOp.added 3 testIp] by decide]
        at hm
      exact Pre.noConfusion hm)
  exact ⟨h.2.2.2.2.1, h.2.2.2.2.2.1,
    h.2.2.2.2.2.2.2.2 RaceOutcome.workerOk⟩

/-- C10: with count 1 and watch_immediately unset, the arming signal is not
pre-fired and the blaster returns success after its single send without ever
reaching the pulse step, so the signal never fires and the watcher (in any
active watch mode) blocks on it forever and never enters its classification
loop. -/
theorem C10_count1_never_armed (a : Args) (mac : Mac) (ip : IPv4)
    (rs : Nat → Nat) (fuel : Nat) (pkts : List (List Nat))
    (hc : a.count = 1) (hi : a.watch_immediately = false)
    (hw : a.watch ≠ Watch.no) :
    prefired a = false
    ∧ (blaster a mac ip rs (fuel + 1)).1
        = waitB a.delay ++ [BEv.send (buildFrame mac a.target ip a.arp_reply)]
    ∧ (blaster a mac ip rs (fuel + 1)).2.2 = true
    ∧ signalFired a (blaster a mac ip rs (fuel + 1)).1 = false
    ∧ listenerRun a.watch (signalFired a (blaster a mac ip rs (fuel + 1)).1)
        ip mac a.watch_delay pkts = ([LEv.waitSig], LoopRes.blocked) := by
  have hpre : prefired a = false := by simp [prefired, hi, hc]
  have hb : blaster a mac ip rs (fuel + 1)
      = (waitB a.delay
          ++ [BEv.send (buildFrame mac a.target ip a.arp_reply)],
         !prefired a, true) := by
    simp [blaster, blastLoop, hc]
  have hnm : BEv.fired
      ∉ waitB a.delay ++ [BEv.send (buildFrame mac a.target ip a.arp_reply)]
      := by
    unfold waitB
    split <;> simp
  have hs : signalFired a (blaster a mac ip rs (fuel + 1)).1 = false := by
    rw [hb]
    simp [signalFired, hpre, hnm]
  refine ⟨hpre, by rw [hb], by rw [hb], hs, ?_⟩
  rw [hs]
  cases hwc : a.watch with
  | no => exact absurd hwc hw
  | fail => rfl
  | quit => rfl
  | log => rfl

/-- C10 witness: the concrete count-1 fail-mode configuration never fires the
signal and its watcher stays blocked. -/
theorem C10_witness :
    prefired count1Args = false
    ∧ signalFired count1Args
        (blaster count1Args testMac testIp (fun _ => 0) 1).1 = false
    ∧ listenerRun count1Args.watch
        (signalFired count1Args
          (blaster count1Args testMac testIp (fun _ => 0) 1).1)
        testIp testMac count1Args.watch_delay [compFrame]
      = ([LEv.waitSig], LoopRes.blocked) := by
  have h := C10_count1_never_armed count1Args testMac testIp (fun _ => 0) 0
    [compFrame] rfl rfl (by decide)
  exact ⟨h.1, h.2.2.2.1, h.2.2.2.2⟩

/-- C5 counterexample: in the default configuration (count 0, watch fail,
watch_immediately false) the arming signal is created already fired
(main.rs 438: Signal::pulsed() when watch_immediately OR count == 0), so the
watcher proceeds past arming and classifies a received frame although no
transmit has occurred; the claim requires the signal to fire only after the
first send whenever watch_immediately is false. -/
theorem C5_counterexample :
    baseArgs.watch_immediately = false
    ∧ baseArgs.watch ≠ Watch.no
    ∧ baseArgs.count = 0
    ∧ prefired baseArgs = true
    ∧ listenerRun baseArgs.watch (prefired baseArgs) testIp testMac
        baseArgs.watch_delay [compFrame]
      = ([LEv.waitSig, LEv.classify compHw compView],
         LoopRes.failed (WErr.competing compHw compHw)) := by decide

/-- Helper: the blaster trace is the initial wait followed by the loop
trace. -/
theorem blaster_fst (a : Args) (mac : Mac) (ip : IPv4) (rs : Nat → Nat)
    (fuel : Nat) :
    (blaster a mac ip rs fuel).1
      = waitB a.delay ++ (blastLoop a mac ip rs fuel 0 (!prefired a)).1 := by
  unfold blaster
  rcases h : blastLoop a mac ip rs fuel 0 (!prefired a) with ⟨evs, p, fin⟩
  rfl

/-- Helper: the loop trace is empty or starts with a transmit. -/
theorem blastLoop_shape (a : Args) (mac : Mac) (ip : IPv4) (rs : Nat → Nat)
    (fuel n : Nat) (pulse : Bool) :
    (blastLoop a mac ip rs fuel n pulse).1 = []
    ∨ ∃ f t, (blastLoop a mac ip rs fuel n pulse).1 = BEv.send f :: t := by
  cases fuel with
  | zero => exact Or.inl rfl
  | succ k =>
    right
    rcases hres : blastLoop a mac ip rs k (n + 1) false with ⟨rest, p2, fin⟩
    simp only [blastLoop, hres]
    split
    · exact ⟨_, _, rfl⟩
    · exact ⟨_, _, rfl⟩

/-- Helper: no prefix of the initial wait contains a signal firing. -/
theorem fired_not_in_waitB_take (d k : Nat) :
    BEv.fired ∉ (waitB d).take k := by
  cases d with
  | zero =>
    rw [show waitB 0 = [] from rfl]
    simp
  | succ d1 =>
    rw [show waitB (d1 + 1) = [BEv.slept (d1 + 1)] from rfl]
    cases k <;> simp

/-- Helper: in a trace made of the initial wait followed by a send-headed
loop trace, any prefix containing the firing also contains that send. -/
theorem send_mem_take_of_fired_mem (d : Nat) (f : List Nat) (t : List BEv)
    (k : Nat) (h : BEv.fired ∈ (waitB d ++ BEv.send f :: t).take k) :
    BEv.send f ∈ (waitB d ++ BEv.send f :: t).take k := by
  cases d with
  | zero =>
    rw [show waitB 0 = [] from rfl, List.nil_append] at h ⊢
    cases k with
    | zero => exact absurd h (by simp)
    | succ k1 =>
      rw [List.take_succ_cons]
      exact List.mem_cons_self _ _
  | succ d1 =>
    rw [show waitB (d1 + 1) = [BEv.slept (d1 + 1)] from rfl,
      List.cons_append] at h ⊢
    cases k with
    | zero => exact absurd h (by simp)
    | succ k1 =>
      cases k1 with
      | zero =>
        rw [List.take_succ_cons, List.take_zero] at h
        simp at h
      | succ k2 =>
        simp only [List.nil_append, List.take_succ_cons]
        exact List.mem_cons_of_mem _ (List.mem_cons_self _ _)

/-- Helper: for an active watch mode with the signal firing, the listener
trace is the arming wait, then the watch_delay sleep, then the loop
events. -/
theorem listenerRun_pos_trace (w : Watch) (ip : IPv4) (mac : Mac) (wd : Nat)
    (pkts : List (List Nat)) (hw : w ≠ Watch.no) :
    (listenerRun w true ip mac wd pkts).1
      = LEv.waitSig :: (waitEvs wd ++ (listenerLoop w ip mac pkts).1) := by
  cases w with
  | no => exact absurd rfl hw
  | fail =>
    rcases h : listenerLoop Watch.fail ip mac pkts with ⟨evs, r⟩
    simp [listenerRun, h]
  | quit =>
    rcases h : listenerLoop Watch.quit ip mac pkts with ⟨evs, r⟩
    simp [listenerRun, h]
  | log =>
    rcases h : listenerLoop Watch.log ip mac pkts with ⟨evs, r⟩
    simp [listenerRun, h]

/-- Helper: any prefix of the listener trace containing a classification also
contains the arming wait and, when watch_delay is nonzero, the watch_delay
sleep. -/
theorem classify_after_arming (l : List LEv) (wd k : Nat) (s : Mac)
    (v : ArpView)
    (hk : LEv.classify s v ∈ (LEv.waitSig :: (waitEvs wd ++ l)).take k) :
    LEv.waitSig ∈ (LEv.waitSig :: (waitEvs wd ++ l)).take k
    ∧ (wd ≠ 0 →
        LEv.sleepW wd ∈ (LEv.waitSig :: (waitEvs wd ++ l)).take k) := by
  cases k with
  | zero => simp at hk
  | succ k1 =>
    constructor
    · simp [List.take_succ_cons]
    · intro hwd
      unfold waitEvs at hk ⊢
      rw [if_neg hwd] at hk ⊢
      cases k1 with
      | zero => simp [List.take_succ_cons] at hk
      | succ k2 =>
        simp [List.take_succ_cons]

/-- C5 (amended): when watch_immediately is false AND count is nonzero (the
code also pre-fires the signal when count is 0), the arming signal is not
created fired, any firing in the blaster trace is preceded by a transmit,
and every classification in the watcher trace comes after the arming wait
and after the watch_delay sleep; with watch_immediately true (or count 0)
the signal is pre-fired so the watcher starts in parallel with the
blaster. -/
theorem C5_arming_order (a : Args) (mac : Mac) (ip : IPv4) (rs : Nat → Nat)
    (fuel : Nat) (pkts : List (List Nat))
    (hi : a.watch_immediately = false) (hc : a.count ≠ 0)
    (hw : a.watch ≠ Watch.no) :
    prefired a = false
    ∧ (∀ k, BEv.fired ∈ (blaster a mac ip rs fuel).1.take k
        → ∃ fr, BEv.send fr ∈ (blaster a mac ip rs fuel).1.take k)
    ∧ (∀ k s v, LEv.classify s v
          ∈ (listenerRun a.watch true ip mac a.watch_delay pkts).1.take k
        → LEv.waitSig
            ∈ (listenerRun a.watch true ip mac a.watch_delay pkts).1.take k
          ∧ (a.watch_delay ≠ 0 → LEv.sleepW a.watch_delay
              ∈ (listenerRun a.watch true ip mac a.watch_delay pkts).1.take k))
    := by
  refine ⟨by simp [prefired, hi, hc], ?_, ?_⟩
  · intro k hk
    rw [blaster_fst] at hk ⊢
    rcases blastLoop_shape a mac ip rs fuel 0 (!prefired a) with hsh | ⟨f, t, hsh⟩
    · rw [hsh, List.append_nil] at hk
      exact absurd hk (fired_not_in_waitB_take a.delay k)
    · rw [hsh] at hk ⊢
      exact ⟨f, send_mem_take_of_fired_mem a.delay f t k hk⟩
  · intro k s v hk
    rw [listenerRun_pos_trace a.watch ip mac a.watch_delay pkts hw] at hk ⊢
    exact classify_after_arming _ a.watch_delay k s v hk

/-- C5 witness: with count 2 the signal is not pre-fired; the two-element
prefix of the blaster trace contains the firing and a transmit before it,
and the two-element prefix of the watcher trace contains both the
classification and the arming wait. -/
theorem C5_witness :
    prefired count2Args = false
    ∧ (∃ fr, BEv.send fr
        ∈ (blaster count2Args testMac testIp (fun _ => 0) 2).1.take 2)
    ∧ LEv.waitSig ∈ (listenerRun count2Args.watch true testIp testMac
        count2Args.watch_delay [compFrame]).1.take 2 := by
  have h := C5_arming_order count2Args testMac testIp (fun _ => 0) 2
    [compFrame] rfl (by decide) (by decide)
  exact ⟨h.1, h.2.1 2 (by decide), (h.2.2 2 compHw compView (by decide)).1⟩

end Noodle
